import Mathlib

/-
Verification of gitupdater (src/gitupdater.py) against its specification.

The program is embedded shallowly: configuration sections become association
lists, the external world (filesystem, git commands, clock) becomes an
explicit `Env` record of oracles, and the run produces an exit code together
with a trace of events (commands executed, commands skipped in dry-run mode,
directories created, log lines).  Python exceptions become `Except Unit`;
`sys.exit(0)` in `load_default` becomes an explicit `continue?` boolean.
Python floats in `parse_interval_sec` are modelled exactly as decimal
rationals represented by a mantissa/scale pair (the claims only involve
decimal values on which float arithmetic is exact).
-/

namespace Gitupdater

instance instDecEqExcept {ε α : Type} [DecidableEq ε] [DecidableEq α] :
    DecidableEq (Except ε α) := fun x y =>
  match x, y with
  | .error a, .error b =>
    if h : a = b then .isTrue (congrArg Except.error h)
    else .isFalse (fun hc => h (Except.error.inj hc))
  | .ok a, .ok b =>
    if h : a = b then .isTrue (congrArg Except.ok h)
    else .isFalse (fun hc => h (Except.ok.inj hc))
  | .error _, .ok _ => .isFalse (fun hc => Except.noConfusion hc)
  | .ok _, .error _ => .isFalse (fun hc => Except.noConfusion hc)

/-- Strings are modelled as lists of characters. -/
abbrev Str := List Char

/-- Conversion from Lean string literals to the model's strings. -/
def str (s : String) : Str := s.data

/-- Association-list lookup (dict / ConfigParser section lookup). -/
def alist_get {α : Type} : List (Str × α) → Str → Option α
  | [], _ => none
  | (k, v) :: rest, key => if k = key then some v else alist_get rest key

/-- One non-DEFAULT section of the INI configuration. -/
structure ConfigSection where
  name : Str
  entries : List (Str × Str)
deriving DecidableEq

/-- The parsed configuration: the DEFAULT section plus the other sections in
declaration order (ConfigParser). -/
structure Config where
  defaults : List (Str × Str)
  sections : List ConfigSection
deriving DecidableEq

/-- `config["DEFAULT"].get(key)`: lookup in the defaults section only. -/
def defaults_get (cfg : Config) (key : Str) : Option Str :=
  alist_get cfg.defaults key

/-- `section[key]` / `section.get(key)`: ConfigParser falls back to the
DEFAULT section when the section itself lacks the key. -/
def section_get (cfg : Config) (s : ConfigSection) (key : Str) : Option Str :=
  match alist_get s.entries key with
  | some v => some v
  | none => defaults_get cfg key

/-- ConfigParser.BOOLEAN_STATES. -/
def boolean_states : List (Str × Bool) :=
  [(str "1", true), (str "yes", true), (str "true", true), (str "on", true),
   (str "0", false), (str "no", false), (str "false", false), (str "off", false)]

/-- Python str.lower restricted to the per-character case map. -/
def lower (s : Str) : Str := s.map Char.toLower

/-- `section.getboolean(key, fallback)`: lookup with DEFAULT fallback, then
interpret the string; an unrecognized value raises ValueError. -/
def section_getboolean (cfg : Config) (s : ConfigSection) (key : Str) (fallbk : Bool) :
    Except Unit Bool :=
  match section_get cfg s key with
  | none => .ok fallbk
  | some v =>
    match alist_get boolean_states (lower v) with
    | some b => .ok b
    | none => .error ()

/-- `config["DEFAULT"].getboolean(key, fallback)`. -/
def defaults_getboolean (cfg : Config) (key : Str) (fallbk : Bool) : Except Unit Bool :=
  match defaults_get cfg key with
  | none => .ok fallbk
  | some v =>
    match alist_get boolean_states (lower v) with
    | some b => .ok b
    | none => .error ()

/-! ### parse_interval_sec -/

/-- The `units` dict of `parse_interval_sec`, in insertion order.  Every
suffix in the source is a single-character string, so suffixes are modelled
as characters. -/
def units : List (Char × Nat) := [('s', 1), ('m', 60), ('h', 3600), ('d', 86400)]

/-- `string.endswith(suffix)` for a single-character suffix. -/
def endswith_char (s : Str) (c : Char) : Bool :=
  match s.getLast? with
  | some x => x = c
  | none => false

/-- `string.split(suffix)[0]` for a single-character separator: the prefix
before the first occurrence. -/
def split_first (s : Str) (c : Char) : Str := s.takeWhile (fun x => x ≠ c)

/-- Value of a digit string read in base 10. -/
def digits_val (s : Str) : Nat := s.foldl (fun acc c => acc * 10 + (c.toNat - 48)) 0

def all_digits (s : Str) : Bool := s.all Char.isDigit

/-- A decimal number `m / 10^scale`, the exact value of the parsed float. -/
structure Dec where
  mantissa : Int
  scale : Nat
deriving DecidableEq

/-- Python `float(s)` restricted to plain decimal literals (optional sign,
digits, at most one dot); anything else raises ValueError.  The value is kept
exact. -/
def parse_float_unsigned (s : Str) : Except Unit Dec :=
  let intPart := s.takeWhile (fun c => c ≠ '.')
  let rest := s.dropWhile (fun c => c ≠ '.')
  match rest with
  | [] =>
    if intPart ≠ [] ∧ all_digits intPart then
      .ok ⟨(digits_val intPart : Int), 0⟩
    else .error ()
  | _ :: frac =>
    if (intPart ≠ [] ∨ frac ≠ []) ∧ all_digits intPart ∧ all_digits frac then
      .ok ⟨(digits_val intPart * 10 ^ frac.length + digits_val frac : Int), frac.length⟩
    else .error ()

def parse_float (s : Str) : Except Unit Dec :=
  match s with
  | '-' :: rest => (parse_float_unsigned rest).map (fun d => ⟨-d.mantissa, d.scale⟩)
  | '+' :: rest => parse_float_unsigned rest
  | _ => parse_float_unsigned s

/-- `int(prefix * value)`: Python int() truncates toward zero. -/
def dec_scale_to_int (d : Dec) (value : Nat) : Int :=
  (d.mantissa * value).tdiv ((10 : Int) ^ d.scale)

/-- The loop body of `parse_interval_sec`: try each unit suffix in order;
returning `.ok none` models falling off the end of the function (Python
returns None). -/
def parse_interval_go : List (Char × Nat) → Str → Except Unit (Option Int)
  | [], _ => .ok none
  | (suf, value) :: rest, s =>
    if endswith_char s suf then
      match parse_float (split_first s suf) with
      | .ok d => .ok (some (dec_scale_to_int d value))
      | .error _ => .error ()
    else parse_interval_go rest s

/-- `parse_interval_sec` from the source. -/
def parse_interval_sec (s : Str) : Except Unit (Option Int) :=
  parse_interval_go units s

/-! ### External world, commands and events -/

/-- The external git commands the updater issues. -/
inductive Cmd where
  | rev_parse (path : Str)
  | pull (path : Str)
  | clone (url : Str) (path : Str)
  | status (path : Str) (untracked_no : Bool)
deriving DecidableEq

/-- Mutating commands per the spec's classification: clone and pull. -/
def Cmd.mutating : Cmd → Bool
  | .pull _ => true
  | .clone _ _ => true
  | _ => false

/-- Observable events of a run. -/
inductive Event where
  | exec (c : Cmd)
  | skip (c : Cmd)
  | mkdir (path : Str)
  | log_not_creating (path : Str)
  | log_checking_out (url : Str) (path : Str)
  | warn_missing (path : Str)
  | warn_dirty (path : Str)
  | info_updated (path : Str)
  | debug_rate_limited
  | touch_lock
deriving DecidableEq

/-- A filesystem-mutating effect: executing a mutating command, or creating a
directory. -/
def is_mutating_effect : Event → Bool
  | .exec c => c.mutating
  | .mkdir _ => true
  | _ => false

/-- Command-line flags (the argparse Namespace). -/
structure Args where
  config : Option Str
  verbose : Bool
  dry_run : Bool
  create : Bool
deriving DecidableEq

/-- The external world: clock, the rate-limit marker file, filesystem
queries, and the outcome of each possible git command. -/
structure Env where
  time_now : Int
  lock_exists : Bool
  lock_mtime : Int
  expanduser : Str → Str
  path_exists : Str → Bool
  is_dir : Str → Bool
  cmd_ok : Cmd → Bool
  cmd_output : Cmd → Str

/-- Python str.strip(). -/
def strip (s : Str) : Str :=
  ((s.dropWhile Char.isWhitespace).reverse.dropWhile Char.isWhitespace).reverse

/-- `GitUpdater.run_cmd` from the source (renamed here): executes the
command unless dry_run is set and the
command is not classified safe.  Returns the stripped output (`none` models
the Python None returned on a dry-run skip); a non-zero exit raises
CalledProcessError. -/
def run_command (a : Args) (env : Env) (c : Cmd) (is_safe : Bool) :
    Except Unit (Option Str) × List Event :=
  if !a.dry_run || is_safe then
    if env.cmd_ok c then (.ok (some (strip (env.cmd_output c))), [.exec c])
    else (.error (), [.exec c])
  else
    (.ok none, [.skip c])

/-- `GitUpdater.git_folder_is_repo`: the rev-parse probe, error converted to
false. -/
def git_folder_is_repo (a : Args) (env : Env) (path : Str) : Bool × List Event :=
  let r := run_command a env (.rev_parse path) true
  match r.fst with
  | .ok _ => (true, r.snd)
  | .error _ => (false, r.snd)

/-- `GitUpdater.git_pull`: pull with rebase; logs "updated" unless the
output is exactly "Already up to date.". -/
def git_pull (a : Args) (env : Env) (path : Str) : Except Unit Unit × List Event :=
  let r := run_command a env (.pull path) false
  match r.fst with
  | .error e => (.error e, r.snd)
  | .ok out =>
    if out ≠ some (str "Already up to date.") then (.ok (), r.snd ++ [.info_updated path])
    else (.ok (), r.snd)

/-- `GitUpdater.git_checkout`: create the directory unless dry_run (or it
already exists), then clone. -/
def git_checkout (a : Args) (env : Env) (git_url : Str) (path : Str) :
    Except Unit Unit × List Event :=
  let es1 :=
    if !a.dry_run && !env.is_dir path then [Event.mkdir path]
    else [Event.log_not_creating path]
  let es2 := es1 ++ [Event.log_checking_out git_url path]
  let r := run_command a env (.clone git_url path) false
  match r.fst with
  | .ok _ => (.ok (), es2 ++ r.snd)
  | .error e => (.error e, es2 ++ r.snd)

/-- `GitUpdater.git_has_changes`: porcelain status (safe), truthy output
means changes. -/
def git_has_changes (a : Args) (env : Env) (path : Str) (ignore_untracked_files : Bool) :
    Except Unit Bool × List Event :=
  let r := run_command a env (.status path ignore_untracked_files) true
  match r.fst with
  | .error e => (.error e, r.snd)
  | .ok out =>
    match out with
    | some o => (.ok (o ≠ []), r.snd)
    | none => (.ok false, r.snd)

/-- `GitUpdater.process_section`.  Missing keys raise KeyError.  Note the
short-circuit: when the path does not exist the rev-parse probe is not run,
and the ignore_untracked_files flag is read from the DEFAULT section, not
from the section itself. -/
def process_section (a : Args) (env : Env) (cfg : Config) (s : ConfigSection) :
    Except Unit Unit × List Event :=
  match section_get cfg s (str "path") with
  | none => (.error (), [])
  | some p =>
    let git_path := env.expanduser p
    let probe :=
      if env.path_exists git_path then
        let r := git_folder_is_repo a env git_path
        (!r.fst, r.snd)
      else (true, ([] : List Event))
    if probe.fst then
      if !a.create then (.ok (), probe.snd ++ [.warn_missing git_path])
      else
        match section_get cfg s (str "url") with
        | none => (.error (), probe.snd)
        | some url =>
          let r := git_checkout a env url git_path
          (r.fst, probe.snd ++ r.snd)
    else
      match section_getboolean cfg s (str "auto_update") false with
      | .error e => (.error e, probe.snd)
      | .ok au =>
        if au then
          match defaults_getboolean cfg (str "ignore_untracked_files") false with
          | .error e => (.error e, probe.snd)
          | .ok iuf =>
            let rc := git_has_changes a env git_path iuf
            match rc.fst with
            | .error e => (.error e, probe.snd ++ rc.snd)
            | .ok changed =>
              if changed then (.ok (), probe.snd ++ rc.snd ++ [.warn_dirty git_path])
              else
                let r := git_pull a env git_path
                (r.fst, probe.snd ++ rc.snd ++ r.snd)
        else (.ok (), probe.snd)

/-- The interval string `load_default` parses: the DEFAULT section's
`update_interval`, `"5m"` when absent. -/
def effective_interval_arg (cfg : Config) : Str :=
  (defaults_get cfg (str "update_interval")).getD (str "5m")

/-- `GitUpdater.load_default`: the rate-limit gate.  `.ok true` means
proceed to the sections, `.ok false` models `sys.exit(0)`.  Comparing a
float with None raises TypeError, hence the error case when the parsed
interval is None and the marker file exists. -/
def load_default (a : Args) (env : Env) (cfg : Config) :
    Except Unit Bool × List Event :=
  match parse_interval_sec (effective_interval_arg cfg) with
  | .error e => (.error e, [])
  | .ok update_interval =>
    if !env.lock_exists then (.ok true, [.touch_lock])
    else
      let elapsed := env.time_now - env.lock_mtime
      match update_interval with
      | none => (.error (), [])
      | some iv =>
        if elapsed < iv ∧ a.create = false then (.ok false, [.debug_rate_limited])
        else (.ok true, [.touch_lock])

/-- The section loop of `GitUpdater.__init__`; an exception aborts the
loop. -/
def process_sections (a : Args) (env : Env) (cfg : Config) :
    List ConfigSection → Except Unit Unit × List Event
  | [] => (.ok (), [])
  | s :: rest =>
    let ps := process_section a env cfg s
    match ps.fst with
    | .error e => (.error e, ps.snd)
    | .ok _ =>
      let r := process_sections a env cfg rest
      (r.fst, ps.snd ++ r.snd)

/-- A whole run of `GitUpdater(args, config)`: exit code and event trace.
An uncaught exception exits 1 (Python traceback); otherwise 0. -/
def gitupdater_run (a : Args) (env : Env) (cfg : Config) : Nat × List Event :=
  let ld := load_default a env cfg
  match ld.fst with
  | .error _ => (1, ld.snd)
  | .ok false => (0, ld.snd)
  | .ok true =>
    let ps := process_sections a env cfg cfg.sections
    match ps.fst with
    | .error _ => (1, ld.snd ++ ps.snd)
    | .ok _ => (0, ld.snd ++ ps.snd)

/-! ### The command line entry point -/

/-- The argparse Namespace defaults. -/
def default_args : Args := ⟨none, false, false, false⟩

/-- The argparse surface of `__main__`: the four optional flags; any other
token is an unrecognized argument (argparse prints usage and exits 2). -/
def parse_args : List Str → Args → Option Args
  | [], acc => some acc
  | x :: rest, acc =>
    if x = str "--config" then
      match rest with
      | v :: r => parse_args r { acc with config := some v }
      | [] => none
    else if x = str "-v" ∨ x = str "--verbose" then parse_args rest { acc with verbose := true }
    else if x = str "-d" ∨ x = str "--dry-run" then parse_args rest { acc with dry_run := true }
    else if x = str "--create" then parse_args rest { acc with create := true }
    else none

/-- What `__main__` does with an argument vector: either argparse rejects it
(usage printed, exit 2) or the program proceeds to load the configuration
and construct GitUpdater. -/
inductive MainOutcome where
  | usage_error
  | runs (a : Args)
deriving DecidableEq

def main_dispatch (argv : List Str) : MainOutcome :=
  match parse_args argv default_args with
  | none => .usage_error
  | some a => .runs a

/-! ### Concrete inputs used by witnesses and counterexamples -/

/-- A concrete environment: marker file present, touched at time 0, clock at
100; every path missing; every command succeeds with empty output. -/
def base_env : Env where
  time_now := 100
  lock_exists := true
  lock_mtime := 0
  expanduser := fun p => p
  path_exists := fun _ => false
  is_dir := fun _ => false
  cmd_ok := fun _ => true
  cmd_output := fun _ => []

/-- A one-section configuration with an empty DEFAULT section. -/
def cfg_one : Config :=
  ⟨[], [⟨str "repo", [(str "path", str "/r")]⟩]⟩

/-- Flags as set by `--dry-run` alone. -/
def args_dry : Args := ⟨none, false, true, false⟩

/-- Environment where the repository path exists and the status check
reports a modified tracked file. -/
def env_dirty : Env := { base_env with
  path_exists := fun _ => true,
  cmd_output := fun c => match c with
    | .status _ _ => str " M file.txt"
    | _ => [] }

/-- A section that sets its own ignore_untracked_files, which the code
nevertheless ignores in favour of the DEFAULT section's value. -/
def sec_c4 : ConfigSection :=
  ⟨str "repo", [(str "path", str "/r"), (str "auto_update", str "true"),
                (str "ignore_untracked_files", str "true")]⟩

def cfg_c4 : Config := ⟨[], [sec_c4]⟩

/-- A section with auto_update enabled. -/
def sec_auto : ConfigSection :=
  ⟨str "repo", [(str "path", str "/r"), (str "auto_update", str "true")]⟩

def cfg_auto : Config := ⟨[], [sec_auto]⟩

/-- Environment for the pull scenario: no marker file yet, the path exists
and is a repository, the tree is clean, and the pull reports it is already
current. -/
def env_c6 : Env := { base_env with
  lock_exists := false,
  path_exists := fun _ => true,
  cmd_output := fun c => match c with
    | .pull _ => str "Already up to date."
    | _ => [] }

/-! ### Helper lemmas -/

/-- The rev-parse probe only ever executes the (safe, non-mutating)
rev-parse command. -/
theorem git_folder_is_repo_mut (a : Args) (env : Env) (p : Str) :
    ∀ e ∈ (git_folder_is_repo a env p).snd, is_mutating_effect e = false := by
  intro e he
  unfold git_folder_is_repo run_command at he
  by_cases hc : env.cmd_ok (.rev_parse p) = true <;> simp [hc] at he <;>
    subst he <;> rfl

/-- The status check only ever executes the (safe, non-mutating) status
command. -/
theorem git_has_changes_mut (a : Args) (env : Env) (p : Str) (u : Bool) :
    ∀ e ∈ (git_has_changes a env p u).snd, is_mutating_effect e = false := by
  intro e he
  unfold git_has_changes run_command at he
  by_cases hc : env.cmd_ok (.status p u) = true <;> simp [hc] at he <;>
    subst he <;> rfl

/-- Under dry_run, git_pull skips its command and creates no mutating
effect. -/
theorem git_pull_dry_mut (a : Args) (env : Env) (p : Str) (h : a.dry_run = true) :
    ∀ e ∈ (git_pull a env p).snd, is_mutating_effect e = false := by
  intro e he
  unfold git_pull run_command at he
  simp [h] at he
  rcases he with rfl | rfl <;> rfl

/-- Under dry_run, git_checkout creates no directory and skips its clone
command. -/
theorem git_checkout_dry_mut (a : Args) (env : Env) (url p : Str)
    (h : a.dry_run = true) :
    ∀ e ∈ (git_checkout a env url p).snd, is_mutating_effect e = false := by
  intro e he
  unfold git_checkout run_command at he
  simp [h] at he
  rcases he with rfl | rfl | rfl <;> rfl

/-- Under dry_run, processing a section produces no mutating effect. -/
theorem process_section_dry_mut (a : Args) (env : Env) (cfg : Config) (s : ConfigSection)
    (h : a.dry_run = true) :
    ∀ e ∈ (process_section a env cfg s).snd, is_mutating_effect e = false := by
  intro e he
  unfold process_section at he
  rcases hsg : section_get cfg s (str "path") with _ | p <;> rw [hsg] at he
  · simp at he
  · by_cases hex : env.path_exists (env.expanduser p) = true
    · simp only [hex, if_true] at he
      cases hrep : (git_folder_is_repo a env (env.expanduser p)).fst
      · cases hcr : a.create
        · simp [hrep, hcr] at he
          rcases he with h1 | h2
          · exact git_folder_is_repo_mut a env (env.expanduser p) e h1
          · subst h2; rfl
        · rcases hurl : section_get cfg s (str "url") with _ | url
          · simp [hrep, hcr, hurl] at he
            exact git_folder_is_repo_mut a env (env.expanduser p) e he
          · simp [hrep, hcr, hurl] at he
            rcases he with h1 | h2
            · exact git_folder_is_repo_mut a env (env.expanduser p) e h1
            · exact git_checkout_dry_mut a env url (env.expanduser p) h e h2
      · rcases hau : section_getboolean cfg s (str "auto_update") false with u | au
        · simp [hrep, hau] at he
          exact git_folder_is_repo_mut a env (env.expanduser p) e he
        · cases au
          · simp [hrep, hau] at he
            exact git_folder_is_repo_mut a env (env.expanduser p) e he
          · rcases hiu : defaults_getboolean cfg (str "ignore_untracked_files") false with
              u | iuf
            · simp [hrep, hau, hiu] at he
              exact git_folder_is_repo_mut a env (env.expanduser p) e he
            · rcases hch : (git_has_changes a env (env.expanduser p) iuf).fst with
                u | changed
              · simp [hrep, hau, hiu, hch] at he
                rcases he with h1 | h2
                · exact git_folder_is_repo_mut a env (env.expanduser p) e h1
                · exact git_has_changes_mut a env (env.expanduser p) iuf e h2
              · cases changed
                · simp [hrep, hau, hiu, hch] at he
                  rcases he with h1 | h2 | h3
                  · exact git_folder_is_repo_mut a env (env.expanduser p) e h1
                  · exact git_has_changes_mut a env (env.expanduser p) iuf e h2
                  · exact git_pull_dry_mut a env (env.expanduser p) h e h3
                · simp [hrep, hau, hiu, hch] at he
                  rcases he with h1 | h2 | h3
                  · exact git_folder_is_repo_mut a env (env.expanduser p) e h1
                  · exact git_has_changes_mut a env (env.expanduser p) iuf e h2
                  · subst h3; rfl
    · cases hcr : a.create
      · simp [hex, hcr] at he
        subst he; rfl
      · rcases hurl : section_get cfg s (str "url") with _ | url
        · simp [hex, hcr, hurl] at he
        · simp [hex, hcr, hurl] at he
          exact git_checkout_dry_mut a env url (env.expanduser p) h e he

/-- Under dry_run, the whole section loop produces no mutating effect. -/
theorem process_sections_dry_mut (a : Args) (env : Env) (cfg : Config)
    (h : a.dry_run = true) :
    ∀ l, ∀ e ∈ (process_sections a env cfg l).snd, is_mutating_effect e = false := by
  intro l
  induction l with
  | nil => simp [process_sections]
  | cons s rest ih =>
    intro e he
    simp only [process_sections] at he
    rcases hps : (process_section a env cfg s).fst with u | u <;> rw [hps] at he
    · exact process_section_dry_mut a env cfg s h e he
    · simp only [List.mem_append] at he
      rcases he with h1 | h2
      · exact process_section_dry_mut a env cfg s h e h1
      · exact ih e h2

/-- The rate-limit gate only touches the marker file or logs; it never
issues a command or creates a directory. -/
theorem load_default_mut (a : Args) (env : Env) (cfg : Config) :
    ∀ e ∈ (load_default a env cfg).snd, is_mutating_effect e = false := by
  intro e he
  unfold load_default at he
  rcases hp : parse_interval_sec (effective_interval_arg cfg) with u | oiv <;> rw [hp] at he
  · simp at he
  · rcases oiv with _ | iv
    · by_cases hl : env.lock_exists = true
      · simp [hl] at he
      · simp [hl] at he
        subst he
        rfl
    · by_cases hl : env.lock_exists = true
      · simp only [hl, Bool.not_true, Bool.false_eq_true, if_false] at he
        by_cases hc : env.time_now - env.lock_mtime < iv ∧ a.create = false
        · rw [if_pos hc] at he
          simp at he
          subst he
          rfl
        · rw [if_neg hc] at he
          simp at he
          subst he
          rfl
      · simp [hl] at he
        subst he
        rfl

/-- Processing a section whose path does not exist, without the create
flag, emits exactly one missing-path warning and nothing else. -/
theorem process_section_missing (a : Args) (env : Env) (cfg : Config) (s : ConfigSection)
    (p : Str)
    (hcreate : a.create = false)
    (hpath : section_get cfg s (str "path") = some p)
    (hex : env.path_exists (env.expanduser p) = false) :
    process_section a env cfg s = (.ok (), [.warn_missing (env.expanduser p)]) := by
  unfold process_section
  rw [hpath]
  simp [hex, hcreate]

/-! ### Claims -/

/-- C7: parse_interval_sec maps "5m" to 300, "2h" to 7200, and "1.5d" to
129600 seconds. -/
theorem c7_parse_interval_values :
    parse_interval_sec (str "5m") = .ok (some 300) ∧
    parse_interval_sec (str "2h") = .ok (some 7200) ∧
    parse_interval_sec (str "1.5d") = .ok (some 129600) := by
  decide

/-- C8: for every interval string that ends with none of the recognized unit
suffixes s, m, h, d, parse_interval_sec falls off the end of its loop and
returns None (no number, no raised error). -/
theorem c8_unrecognized_suffix_returns_none (s : Str)
    (hs : endswith_char s 's' = false) (hm : endswith_char s 'm' = false)
    (hh : endswith_char s 'h' = false) (hd : endswith_char s 'd' = false) :
    parse_interval_sec s = .ok none := by
  simp [parse_interval_sec, parse_interval_go, units, hs, hm, hh, hd]

theorem c8_unrecognized_suffix_returns_none_witness :
    endswith_char (str "5x") 's' = false ∧ endswith_char (str "5x") 'm' = false ∧
    endswith_char (str "5x") 'h' = false ∧ endswith_char (str "5x") 'd' = false ∧
    parse_interval_sec (str "5x") = .ok none :=
  ⟨by decide, by decide, by decide, by decide,
    c8_unrecognized_suffix_returns_none (str "5x") (by decide) (by decide)
      (by decide) (by decide)⟩

/-- C9 counterexample: invoked with no flags and no arguments, the program
does not print usage with a non-zero exit; argparse accepts the empty
argument vector (all four options are optional). -/
theorem c9_no_args_counterexample :
    main_dispatch [] ≠ MainOutcome.usage_error := by
  decide

/-- C9 amended: with no flags and no arguments, argument parsing succeeds
with all-default flags and the program proceeds to load the default
configuration and run; usage with a non-zero exit happens only on an
unrecognized argument. -/
theorem c9_no_args_amended :
    main_dispatch [] = MainOutcome.runs default_args ∧
    main_dispatch [str "unexpected"] = MainOutcome.usage_error := by
  decide

/-- C10: when the defaults section does not define update_interval, the
string "5m" is parsed instead and the rate-limit interval used by
load_default is 300 seconds. -/
theorem c10_default_interval_300 (cfg : Config)
    (h : defaults_get cfg (str "update_interval") = none) :
    parse_interval_sec (effective_interval_arg cfg) = .ok (some 300) := by
  unfold effective_interval_arg
  rw [h]
  decide

theorem c10_default_interval_300_witness :
    defaults_get cfg_one (str "update_interval") = none ∧
    parse_interval_sec (effective_interval_arg cfg_one) = .ok (some 300) :=
  ⟨by decide, c10_default_interval_300 cfg_one (by decide)⟩

/-- C1: when the rate-limit marker exists, the elapsed time since its last
modification is below the parsed update_interval, and the create flag is
off, the run exits 0 having emitted only the rate-limit debug line: no
section is processed and no external command is issued. -/
theorem c1_rate_limit_skips_run (a : Args) (env : Env) (cfg : Config) (iv : Int)
    (hiv : parse_interval_sec (effective_interval_arg cfg) = .ok (some iv))
    (hlock : env.lock_exists = true)
    (helapsed : env.time_now - env.lock_mtime < iv)
    (hcreate : a.create = false) :
    gitupdater_run a env cfg = (0, [Event.debug_rate_limited]) := by
  unfold gitupdater_run load_default
  rw [hiv]
  simp [hlock, helapsed, hcreate]

theorem c1_rate_limit_skips_run_witness :
    parse_interval_sec (effective_interval_arg cfg_one) = .ok (some 300) ∧
    base_env.lock_exists = true ∧
    base_env.time_now - base_env.lock_mtime < 300 ∧
    default_args.create = false ∧
    gitupdater_run default_args base_env cfg_one = (0, [Event.debug_rate_limited]) :=
  ⟨by decide, rfl, by decide, rfl,
    c1_rate_limit_skips_run default_args base_env cfg_one 300 (by decide) rfl
      (by decide) rfl⟩

/-- C2: for a section whose path exists and is a valid repository, with
auto_update true, when the status check reports uncommitted changes the
section's trace is exactly the probe, the status check and a dirty warning:
no pull command is ever issued for it. -/
theorem c2_dirty_tree_no_pull (a : Args) (env : Env) (cfg : Config) (s : ConfigSection)
    (p : Str) (iuf : Bool)
    (hpath : section_get cfg s (str "path") = some p)
    (hexists : env.path_exists (env.expanduser p) = true)
    (hrepo : env.cmd_ok (.rev_parse (env.expanduser p)) = true)
    (hau : section_getboolean cfg s (str "auto_update") false = .ok true)
    (hiuf : defaults_getboolean cfg (str "ignore_untracked_files") false = .ok iuf)
    (hstatok : env.cmd_ok (.status (env.expanduser p) iuf) = true)
    (hdirty : strip (env.cmd_output (.status (env.expanduser p) iuf)) ≠ []) :
    process_section a env cfg s =
      (.ok (), [.exec (.rev_parse (env.expanduser p)),
                .exec (.status (env.expanduser p) iuf),
                .warn_dirty (env.expanduser p)]) ∧
    ∀ q, Event.exec (Cmd.pull q) ∉ (process_section a env cfg s).snd := by
  have h1 : process_section a env cfg s =
      (.ok (), [.exec (.rev_parse (env.expanduser p)),
                .exec (.status (env.expanduser p) iuf),
                .warn_dirty (env.expanduser p)]) := by
    unfold process_section git_folder_is_repo git_has_changes run_command
    rw [hpath]
    simp [hexists, hrepo, hau, hiuf, hstatok, hdirty]
  refine ⟨h1, ?_⟩
  intro q
  rw [h1]
  simp

theorem c2_dirty_tree_no_pull_witness :
    section_get cfg_auto sec_auto (str "path") = some (str "/r") ∧
    env_dirty.path_exists (str "/r") = true ∧
    strip (env_dirty.cmd_output (.status (str "/r") false)) ≠ [] ∧
    (process_section default_args env_dirty cfg_auto sec_auto =
       (.ok (), [.exec (.rev_parse (str "/r")), .exec (.status (str "/r") false),
                 .warn_dirty (str "/r")]) ∧
     ∀ q, Event.exec (Cmd.pull q) ∉
       (process_section default_args env_dirty cfg_auto sec_auto).snd) :=
  ⟨by decide, by decide, by decide,
    c2_dirty_tree_no_pull default_args env_dirty cfg_auto sec_auto (str "/r") false
      (by decide) (by decide) (by decide) (by decide) (by decide) (by decide)
      (by decide)⟩

/-- C3: with dry_run set, the whole run produces no mutating effect (no
executed clone or pull, no directory creation), while run_cmd on a command
classified safe behaves exactly as it does without dry_run. -/
theorem c3_dry_run_frame (a : Args) (env : Env) (cfg : Config)
    (hdry : a.dry_run = true) :
    (∀ e ∈ (gitupdater_run a env cfg).snd, is_mutating_effect e = false) ∧
    (∀ env2 c, run_command a env2 c true =
      run_command { a with dry_run := false } env2 c true) := by
  constructor
  · intro e he
    simp only [gitupdater_run] at he
    rcases hld : (load_default a env cfg).fst with u | b <;> rw [hld] at he
    · exact load_default_mut a env cfg e he
    · cases b
      · exact load_default_mut a env cfg e he
      · rcases hpr : (process_sections a env cfg cfg.sections).fst with u | u <;>
          rw [hpr] at he <;> simp only [List.mem_append] at he <;>
          rcases he with h1 | h2
        · exact load_default_mut a env cfg e h1
        · exact process_sections_dry_mut a env cfg hdry cfg.sections e h2
        · exact load_default_mut a env cfg e h1
        · exact process_sections_dry_mut a env cfg hdry cfg.sections e h2
  · intro env2 c
    simp [run_command]

theorem c3_dry_run_frame_witness :
    args_dry.dry_run = true ∧
    ((∀ e ∈ (gitupdater_run args_dry base_env cfg_one).snd,
        is_mutating_effect e = false) ∧
     (∀ env2 c, run_command args_dry env2 c true =
       run_command { args_dry with dry_run := false } env2 c true)) :=
  ⟨rfl, c3_dry_run_frame args_dry base_env cfg_one rfl⟩

/-- C4 counterexample: a section that sets ignore_untracked_files=true while
the DEFAULT section leaves it unset is checked with the untracked-files flag
false — the per-section value does not override the default as the claim
states. -/
theorem c4_counterexample :
    Event.exec (Cmd.status (str "/r") false) ∈
      (process_section default_args env_dirty cfg_c4 sec_c4).snd ∧
    Event.exec (Cmd.status (str "/r") true) ∉
      (process_section default_args env_dirty cfg_c4 sec_c4).snd := by
  decide

/-- C4 amended: the ignore_untracked_files value used when checking any
section is always the one derived from the DEFAULT section (false when
absent there); a per-section setting is ignored. -/
theorem c4_ignore_untracked_from_defaults (a : Args) (env : Env) (cfg : Config)
    (s : ConfigSection) (p : Str) (iuf : Bool)
    (hpath : section_get cfg s (str "path") = some p)
    (hexists : env.path_exists (env.expanduser p) = true)
    (hrepo : env.cmd_ok (.rev_parse (env.expanduser p)) = true)
    (hau : section_getboolean cfg s (str "auto_update") false = .ok true)
    (hiuf : defaults_getboolean cfg (str "ignore_untracked_files") false = .ok iuf) :
    Event.exec (Cmd.status (env.expanduser p) iuf) ∈
      (process_section a env cfg s).snd ∧
    ∀ q b, Event.exec (Cmd.status q b) ∈ (process_section a env cfg s).snd →
      b = iuf := by
  unfold process_section git_folder_is_repo git_has_changes git_pull run_command
  rw [hpath]
  cases hst : env.cmd_ok (.status (env.expanduser p) iuf) with
  | false => simp [hexists, hrepo, hau, hiuf, hst]
  | true =>
    by_cases hout : strip (env.cmd_output (.status (env.expanduser p) iuf)) = []
    · cases hdr : a.dry_run with
      | false =>
        cases hpk : env.cmd_ok (.pull (env.expanduser p)) with
        | false => simp [hexists, hrepo, hau, hiuf, hst, hout, hdr, hpk]
        | true =>
          by_cases hpo : strip (env.cmd_output (.pull (env.expanduser p))) =
            str "Already up to date."
          · simp [hexists, hrepo, hau, hiuf, hst, hout, hdr, hpk, hpo]
          · simp [hexists, hrepo, hau, hiuf, hst, hout, hdr, hpk, hpo]
      | true => simp [hexists, hrepo, hau, hiuf, hst, hout, hdr]
    · simp [hexists, hrepo, hau, hiuf, hst, hout]

theorem c4_ignore_untracked_from_defaults_witness :
    section_get cfg_c4 sec_c4 (str "path") = some (str "/r") ∧
    alist_get sec_c4.entries (str "ignore_untracked_files") = some (str "true") ∧
    defaults_getboolean cfg_c4 (str "ignore_untracked_files") false = .ok false ∧
    (Event.exec (Cmd.status (str "/r") false) ∈
       (process_section default_args env_dirty cfg_c4 sec_c4).snd ∧
     ∀ q b, Event.exec (Cmd.status q b) ∈
       (process_section default_args env_dirty cfg_c4 sec_c4).snd → b = false) :=
  ⟨by decide, by decide, by decide,
    c4_ignore_untracked_from_defaults default_args env_dirty cfg_c4 sec_c4
      (str "/r") false (by decide) (by decide) (by decide) (by decide) (by decide)⟩


/-- When every section in the list has a missing path and create is off,
the section loop succeeds and emits only warnings. -/
theorem process_sections_all_missing (a : Args) (env : Env) (cfg : Config)
    (hcreate : a.create = false) :
    ∀ l, (∀ s ∈ l, ∃ p, section_get cfg s (str "path") = some p ∧
        env.path_exists (env.expanduser p) = false) →
      (process_sections a env cfg l).fst = Except.ok () ∧
      (∀ e ∈ (process_sections a env cfg l).snd, is_mutating_effect e = false) := by
  intro l
  induction l with
  | nil => intro _; refine ⟨rfl, ?_⟩; simp [process_sections]
  | cons s rest ih =>
    intro hl
    obtain ⟨p, hp, hex⟩ := hl s (List.mem_cons_self s rest)
    have hone := process_section_missing a env cfg s p hcreate hp hex
    have hrest := ih (fun s' hs' => hl s' (List.mem_cons_of_mem s hs'))
    constructor
    · simp only [process_sections, hone]
      exact hrest.1
    · intro e he
      simp only [process_sections, hone] at he
      simp only [List.mem_append, List.mem_singleton] at he
      rcases he with h1 | h2
      · subst h1; rfl
      · exact hrest.2 e h2

/-- C5: with the create flag off, every configured section whose path does
not exist is skipped with exactly one warning and no mutating command, and
when all sections are such the run still exits 0. -/
theorem c5_missing_paths_skip (a : Args) (env : Env) (cfg : Config)
    (hcreate : a.create = false)
    (hld : (load_default a env cfg).fst ≠ Except.error ())
    (hmiss : ∀ s ∈ cfg.sections, ∃ p, section_get cfg s (str "path") = some p ∧
      env.path_exists (env.expanduser p) = false) :
    (gitupdater_run a env cfg).fst = 0 ∧
    (∀ e ∈ (gitupdater_run a env cfg).snd, is_mutating_effect e = false) ∧
    (∀ s ∈ cfg.sections, ∀ p, section_get cfg s (str "path") = some p →
      process_section a env cfg s = (.ok (), [.warn_missing (env.expanduser p)])) := by
  have hsec : ∀ s ∈ cfg.sections, ∀ p, section_get cfg s (str "path") = some p →
      process_section a env cfg s = (.ok (), [.warn_missing (env.expanduser p)]) := by
    intro s hs p hp
    obtain ⟨p', hp', hex⟩ := hmiss s hs
    rw [hp] at hp'
    cases hp'
    exact process_section_missing a env cfg s p hcreate hp hex
  have hps := process_sections_all_missing a env cfg hcreate cfg.sections hmiss
  obtain ⟨b, hb⟩ : ∃ b, (load_default a env cfg).fst = Except.ok b := by
    rcases h : (load_default a env cfg).fst with u | b
    · cases u; exact absurd h hld
    · exact ⟨b, rfl⟩
  refine ⟨?_, ?_, hsec⟩
  · simp only [gitupdater_run, hb]
    cases b
    · rfl
    · simp only [hps.1]
  · intro e he
    simp only [gitupdater_run, hb] at he
    cases b
    · exact load_default_mut a env cfg e he
    · simp only [hps.1, List.mem_append] at he
      rcases he with h1 | h2
      · exact load_default_mut a env cfg e h1
      · exact hps.2 e h2

theorem c5_missing_paths_skip_witness :
    default_args.create = false ∧
    (load_default default_args base_env cfg_one).fst ≠ Except.error () ∧
    base_env.path_exists (str "/r") = false ∧
    ((gitupdater_run default_args base_env cfg_one).fst = 0 ∧
     (∀ e ∈ (gitupdater_run default_args base_env cfg_one).snd,
        is_mutating_effect e = false) ∧
     (∀ s ∈ cfg_one.sections, ∀ p, section_get cfg_one s (str "path") = some p →
        process_section default_args base_env cfg_one s =
          (.ok (), [.warn_missing (base_env.expanduser p)]))) :=
  ⟨rfl, by decide, rfl,
    c5_missing_paths_skip default_args base_env cfg_one rfl (by decide)
      (by decide)⟩



/-- C6: for a single-section run (no marker file yet) whose path exists, is
a valid repository, has a clean tree and auto_update true, the pull command
is executed and the run exits 0; the "updated" info log is emitted exactly
when the trimmed pull output differs from the literal
"Already up to date.". -/
theorem c6_clean_pull (a : Args) (env : Env) (cfg : Config) (s : ConfigSection)
    (p : Str) (iuf : Bool) (o : Option Int)
    (hdry : a.dry_run = false)
    (hsecs : cfg.sections = [s])
    (hiv : parse_interval_sec (effective_interval_arg cfg) = .ok o)
    (hlock : env.lock_exists = false)
    (hpath : section_get cfg s (str "path") = some p)
    (hexists : env.path_exists (env.expanduser p) = true)
    (hrepo : env.cmd_ok (.rev_parse (env.expanduser p)) = true)
    (hau : section_getboolean cfg s (str "auto_update") false = .ok true)
    (hiuf : defaults_getboolean cfg (str "ignore_untracked_files") false = .ok iuf)
    (hstatok : env.cmd_ok (.status (env.expanduser p) iuf) = true)
    (hclean : strip (env.cmd_output (.status (env.expanduser p) iuf)) = [])
    (hpullok : env.cmd_ok (.pull (env.expanduser p)) = true) :
    Event.exec (Cmd.pull (env.expanduser p)) ∈ (gitupdater_run a env cfg).snd ∧
    (gitupdater_run a env cfg).fst = 0 ∧
    (strip (env.cmd_output (.pull (env.expanduser p))) = str "Already up to date." →
      Event.info_updated (env.expanduser p) ∉ (gitupdater_run a env cfg).snd) ∧
    (strip (env.cmd_output (.pull (env.expanduser p))) ≠ str "Already up to date." →
      Event.info_updated (env.expanduser p) ∈ (gitupdater_run a env cfg).snd) := by
  by_cases hpo : strip (env.cmd_output (.pull (env.expanduser p))) =
      str "Already up to date."
  · have h1 : process_section a env cfg s =
        (.ok (), [.exec (.rev_parse (env.expanduser p)),
                  .exec (.status (env.expanduser p) iuf),
                  .exec (.pull (env.expanduser p))]) := by
      unfold process_section git_folder_is_repo git_has_changes git_pull run_command
      rw [hpath]
      simp [hexists, hrepo, hau, hiuf, hstatok, hclean, hdry, hpullok, hpo]
    have h2 : gitupdater_run a env cfg =
        (0, [Event.touch_lock, .exec (.rev_parse (env.expanduser p)),
             .exec (.status (env.expanduser p) iuf),
             .exec (.pull (env.expanduser p))]) := by
      simp only [gitupdater_run, load_default, hiv, hlock, hsecs, process_sections, h1]
      simp
    rw [h2]
    refine ⟨by simp, rfl, fun _ => by simp, fun hne => absurd hpo hne⟩
  · have h1 : process_section a env cfg s =
        (.ok (), [.exec (.rev_parse (env.expanduser p)),
                  .exec (.status (env.expanduser p) iuf),
                  .exec (.pull (env.expanduser p)),
                  .info_updated (env.expanduser p)]) := by
      unfold process_section git_folder_is_repo git_has_changes git_pull run_command
      rw [hpath]
      simp [hexists, hrepo, hau, hiuf, hstatok, hclean, hdry, hpullok, hpo]
    have h2 : gitupdater_run a env cfg =
        (0, [Event.touch_lock, .exec (.rev_parse (env.expanduser p)),
             .exec (.status (env.expanduser p) iuf),
             .exec (.pull (env.expanduser p)),
             .info_updated (env.expanduser p)]) := by
      simp only [gitupdater_run, load_default, hiv, hlock, hsecs, process_sections, h1]
      simp
    rw [h2]
    refine ⟨by simp, rfl, fun heq => absurd heq hpo, fun _ => by simp⟩

theorem c6_clean_pull_witness :
    default_args.dry_run = false ∧
    cfg_auto.sections = [sec_auto] ∧
    env_c6.lock_exists = false ∧
    strip (env_c6.cmd_output (.status (str "/r") false)) = [] ∧
    strip (env_c6.cmd_output (.pull (str "/r"))) = str "Already up to date." ∧
    (Event.exec (Cmd.pull (str "/r")) ∈
       (gitupdater_run default_args env_c6 cfg_auto).snd ∧
     (gitupdater_run default_args env_c6 cfg_auto).fst = 0 ∧
     (strip (env_c6.cmd_output (.pull (str "/r"))) = str "Already up to date." →
       Event.info_updated (str "/r") ∉ (gitupdater_run default_args env_c6 cfg_auto).snd) ∧
     (strip (env_c6.cmd_output (.pull (str "/r"))) ≠ str "Already up to date." →
       Event.info_updated (str "/r") ∈ (gitupdater_run default_args env_c6 cfg_auto).snd)) :=
  ⟨rfl, rfl, rfl, by decide, by decide,
    c6_clean_pull default_args env_c6 cfg_auto sec_auto (str "/r") false (some 300)
      rfl rfl (by decide) rfl (by decide) (by decide) (by decide) (by decide)
      (by decide) (by decide) (by decide) (by decide)⟩


end Gitupdater
